import Mathlib

/-!
Verification development for the process-orchestration core of the
`pdf_cleanup_agent` repository.

The definitions below are a shallow embedding, translated directly from
`src/scripts/ui/handlers/process_handler.py` (class `ProcessManager`) and
`src/scripts/ui/handlers/pdf_handler.py` (dataclass `ProcessingState` and
class `PDFHandler`).  Python dictionaries are modelled as association
lists keyed by `String` (a dictionary holds each key at most once; the
`alist*` helpers update/remove the first occurrence, matching that
discipline).  Qt signal emissions are modelled as values of an explicit
`Signal` type collected in a list, and the single-shot queue timer is
modelled by a `timer_active` flag.  Python `time.time()` timestamps are
supplied as explicit `now : Nat` arguments.
-/

namespace PdfCleanup

/-- Lookup of the first binding of key `k` in an association list
(a Python `dict` holds each key once, so this is dictionary lookup). -/
def alistGet {α : Type} (k : String) : List (String × α) → Option α
  | [] => none
  | (k', v) :: rest => if k' = k then some v else alistGet k rest

/-- `d[k] = v` on a Python dict: replace the binding if the key is present,
otherwise append a new binding. -/
def alistSet {α : Type} (k : String) (v : α) : List (String × α) → List (String × α)
  | [] => [(k, v)]
  | (k', v') :: rest => if k' = k then (k, v) :: rest else (k', v') :: alistSet k v rest

/-- `del d[k]` on a Python dict: drop the (first) binding of `k`. -/
def alistRemove {α : Type} (k : String) : List (String × α) → List (String × α)
  | [] => []
  | (k', v') :: rest => if k' = k then rest else (k', v') :: alistRemove k rest

/-- The guarded in-place mutation pattern `if k in d: d[k].field = x`:
apply `f` to the value bound to `k` when present, else do nothing. -/
def alistUpdate {α : Type} (k : String) (f : α → α) : List (String × α) → List (String × α)
  | [] => []
  | (k', v) :: rest => if k' = k then (k', f v) :: rest else (k', v) :: alistUpdate k f rest

theorem alistGet_set_self {α : Type} (k : String) (v : α) (l : List (String × α)) :
    alistGet k (alistSet k v l) = some v := by
  induction l with
  | nil => simp [alistGet, alistSet]
  | cons hd tl ih =>
    obtain ⟨k', v'⟩ := hd
    by_cases h : k' = k
    · simp [alistGet, alistSet, h]
    · simp [alistGet, alistSet, h, ih]

theorem alistGet_eq_none_of_not_mem {α : Type} (k : String) (l : List (String × α))
    (h : k ∉ l.map Prod.fst) : alistGet k l = none := by
  induction l with
  | nil => simp [alistGet]
  | cons hd tl ih =>
    obtain ⟨k', v'⟩ := hd
    simp only [List.map_cons, List.mem_cons] at h
    push_neg at h
    have hne : k' ≠ k := fun hEq => h.1 hEq.symm
    simp [alistGet, hne, ih h.2]

theorem alistGet_remove_self {α : Type} (k : String) (l : List (String × α))
    (hnd : (l.map Prod.fst).Nodup) : alistGet k (alistRemove k l) = none := by
  induction l with
  | nil => simp [alistGet, alistRemove]
  | cons hd tl ih =>
    obtain ⟨k', v'⟩ := hd
    simp only [List.map_cons, List.nodup_cons] at hnd
    by_cases h : k' = k
    · subst h
      simp only [alistRemove, if_pos rfl]
      exact alistGet_eq_none_of_not_mem _ _ hnd.1
    · simp only [alistRemove, if_neg h, alistGet, if_neg h]
      exact ih hnd.2

/-! ## Progress extractor

`ProcessManager._extract_progress_from_output` applies an ordered list of
regular expressions with `re.search` (leftmost match, `re.IGNORECASE`) and
returns the derived percentage clamped to `[0, 100]`, or `-1` when no
pattern yields a value.  Each pattern below is embedded as a matcher that
attempts the pattern at the head of a character list; `searchAt` then
scans start positions left to right, exactly like `re.search`.  For every
pattern used, greedy matching with backtracking coincides with
maximal-munch because adjacent tokens draw from disjoint character
classes, so the matchers take maximal digit/space runs.  Python's
`int((current / total) * 100)` is evaluated in IEEE-754 double precision:
CPython's integer true division returns the correctly rounded
(round-to-nearest, ties-to-even, 53-bit) double of the exact quotient,
the multiplication by 100 rounds its exact product the same way, and
`int()` truncates toward zero.  The `float*` definitions below model this
bit-exactly on nonnegative values with exact `Nat`/`Int` arithmetic
(doubles as mantissa-exponent pairs `m * 2 ^ e` with `2^52 ≤ m < 2^53`),
which is faithful whenever the quotient stays inside the double range:
below it (quotients under `2^-1022`) normal and subnormal rounding agree
after the final truncation (both give 0), and above it (quotients at
about `2^1024`, i.e. hundreds of digits in a progress line) CPython
raises an `OverflowError` that the source's `except ValueError` does not
catch, a regime the fraction theorems exclude by hypothesis. -/

/-- Greedy `\d+`: the maximal digit run at the head, and the rest. -/
def takeDigits : List Char → List Char × List Char
  | [] => ([], [])
  | c :: cs =>
    if c.isDigit then
      let (d, r) := takeDigits cs
      (c :: d, r)
    else ([], c :: cs)

/-- Value of a digit run, as `int()` of the captured group. -/
def digitsToNat (cs : List Char) : Nat :=
  cs.foldl (fun acc c => 10 * acc + (c.toNat - '0'.toNat)) 0

/-- Whitespace class `\s` (ASCII: space, tab, newline, return, vtab, formfeed). -/
def isSpaceChar (c : Char) : Bool :=
  c = ' ' || c = '\t' || c = '\n' || c = '\r' || c = Char.ofNat 11 || c = Char.ofNat 12

/-- Greedy `\s*`: drop the maximal whitespace run at the head. -/
def skipSpaces : List Char → List Char
  | [] => []
  | c :: cs => if isSpaceChar c then skipSpaces cs else c :: cs

/-- Case-insensitive literal match (for `re.IGNORECASE`); returns the rest. -/
def matchLitCI : List Char → List Char → Option (List Char)
  | [], rest => some rest
  | _ :: _, [] => none
  | l :: ls, c :: cs => if l.toLower = c.toLower then matchLitCI ls cs else none

/-- Pattern `(\d+)%` attempted at the head. -/
def matchPctAt (cs : List Char) : Option Nat :=
  let (d, r) := takeDigits cs
  if d.isEmpty then none
  else match r with
    | '%' :: _ => some (digitsToNat d)
    | _ => none

/-- Pattern `(\d+)/(\d+)` attempted at the head. -/
def matchFracAt (cs : List Char) : Option (Nat × Nat) :=
  let (d1, r1) := takeDigits cs
  if d1.isEmpty then none
  else match r1 with
    | '/' :: r2 =>
      let (d2, _) := takeDigits r2
      if d2.isEmpty then none else some (digitsToNat d1, digitsToNat d2)
    | _ => none

/-- Pattern `Progress:\s*(\d+)` (case-insensitive) attempted at the head. -/
def matchProgressAt (cs : List Char) : Option Nat := do
  let r1 ← matchLitCI "progress:".toList cs
  let (d, _) := takeDigits (skipSpaces r1)
  if d.isEmpty then none else some (digitsToNat d)

/-- Shared tail `\s*(\d+)\s*of\s*(\d+)` of the `Step`/`Processing` patterns. -/
def matchOfTail (cs : List Char) : Option (Nat × Nat) := do
  let (d1, r1) := takeDigits (skipSpaces cs)
  if d1.isEmpty then none
  else do
    let r2 ← matchLitCI "of".toList (skipSpaces r1)
    let (d2, _) := takeDigits (skipSpaces r2)
    if d2.isEmpty then none else some (digitsToNat d1, digitsToNat d2)

/-- Pattern `Step\s*(\d+)\s*of\s*(\d+)` (case-insensitive) at the head. -/
def matchStepAt (cs : List Char) : Option (Nat × Nat) := do
  let r1 ← matchLitCI "step".toList cs
  matchOfTail r1

/-- Pattern `Processing\s*(\d+)\s*of\s*(\d+)` (case-insensitive) at the head. -/
def matchProcessingAt (cs : List Char) : Option (Nat × Nat) := do
  let r1 ← matchLitCI "processing".toList cs
  matchOfTail r1

/-- Pattern `\[(\d+)/(\d+)\]` attempted at the head. -/
def matchBracketFracAt (cs : List Char) : Option (Nat × Nat) :=
  match cs with
  | '[' :: r0 =>
    let (d1, r1) := takeDigits r0
    if d1.isEmpty then none
    else match r1 with
      | '/' :: r2 =>
        let (d2, r3) := takeDigits r2
        if d2.isEmpty then none
        else match r3 with
          | ']' :: _ => some (digitsToNat d1, digitsToNat d2)
          | _ => none
      | _ => none
  | _ => none

/-- `re.search`: try the pattern at each start position, leftmost first
(including the end-of-string position, where every pattern here fails). -/
def searchAt {α : Type} (f : List Char → Option α) : List Char → Option α
  | [] => f []
  | c :: cs =>
    match f (c :: cs) with
    | some x => some x
    | none => searchAt f cs

/-- `min(100, max(0, n))` on a captured percentage (`max 0` is vacuous on `Nat`). -/
def clampPct (n : Nat) : Int := Int.ofNat (min 100 n)

/-- Number of binary digits of `n` (`floor(log2 n) + 1` for `n > 0`); the
fuel argument keeps the recursion structural (`n` itself is enough fuel). -/
def bitLenAux : Nat → Nat → Nat
  | 0, _ => 0
  | fuel + 1, n => if n = 0 then 0 else bitLenAux fuel (n / 2) + 1

/-- Bit length of a natural number. -/
def bitLen (n : Nat) : Nat := bitLenAux n n

/-- Floor and remainder of the scaled quotient `a * 2 ^ k / b` (for `k < 0`
the divisor is scaled instead), together with the divisor used. -/
def divScaled (a b : Nat) (k : Int) : Nat × Nat × Nat :=
  if 0 ≤ k then
    let n := a * 2 ^ k.toNat
    (n / b, n % b, b)
  else
    let d := b * 2 ^ (-k).toNat
    (a / d, a % d, d)

/-- IEEE-754 round-to-nearest, ties-to-even: round the value
`q0 + r / d` (with `0 ≤ r < d`) to an integer mantissa. -/
def roundMantissa (q0 r d : Nat) : Nat :=
  if d < 2 * r then q0 + 1
  else if 2 * r < d then q0
  else if q0 % 2 = 0 then q0 else q0 + 1

/-- The correctly rounded double of the exact quotient `a / b` (for
`a, b > 0`), as a mantissa-exponent pair `m * 2 ^ e` with
`2^52 ≤ m < 2^53`: exactly what CPython's integer true division
computes.  Scales the quotient into `[2^52, 2^54)`, drops to 53 bits if
needed, and rounds nearest-ties-to-even with a carry renormalisation. -/
def floatDivNat (a b : Nat) : Nat × Int :=
  let k0 : Int := 53 - ((bitLen a : Int) - (bitLen b : Int))
  let r0 := divScaled a b k0
  let kqr := if 2 ^ 53 ≤ r0.1 then (k0 - 1, divScaled a b (k0 - 1)) else (k0, r0)
  let k := kqr.1
  let m := roundMantissa kqr.2.1 kqr.2.2.1 kqr.2.2.2
  if m = 2 ^ 53 then (2 ^ 52, 1 - k) else (m, -k)

/-- The correctly rounded double product of the double `m * 2 ^ e`
(`2^52 ≤ m < 2^53`) and a small natural constant `c`: the exact mantissa
product is cut back to 53 bits, rounding nearest-ties-to-even. -/
def floatMulNat (m : Nat) (e : Int) (c : Nat) : Nat × Int :=
  let p := m * c
  let t := bitLen p
  if t ≤ 53 then (p, e)
  else
    let sh := t - 53
    let hi := p / 2 ^ sh
    let low := p % 2 ^ sh
    let half := 2 ^ (sh - 1)
    let m2 :=
      if half < low then hi + 1
      else if low < half then hi
      else if hi % 2 = 0 then hi else hi + 1
    if m2 = 2 ^ 53 then (2 ^ 52, e + sh + 1) else (m2, e + sh)

/-- Python `int()` on the nonnegative double `m * 2 ^ e`: truncation toward
zero, which on nonnegative values is the floor. -/
def floatTruncNat (m : Nat) (e : Int) : Nat :=
  if 0 ≤ e then m * 2 ^ e.toNat else m / 2 ^ (-e).toNat

/-- `int((current / total) * 100)` for `total > 0`, evaluated like CPython:
correctly rounded double division, correctly rounded double
multiplication by 100, then truncation toward zero. -/
def pyFracTimes100Trunc (current total : Nat) : Nat :=
  if current = 0 then 0
  else
    let q := floatDivNat current total
    let p := floatMulNat q.1 q.2 100
    floatTruncNat p.1 p.2

/-- `min(100, max(0, int((current / total) * 100)))` with the parenthesised
expression evaluated in double precision as in the source. -/
def fracPct (current total : Nat) : Int :=
  Int.ofNat (min 100 (pyFracTimes100Trunc current total))

/-- Pattern 6 of `_extract_progress_from_output`, reached when patterns 1-5
produced no usable value. -/
def extractAfterProcessing (cs : List Char) : Int :=
  match searchAt matchBracketFracAt cs with
  | some (a, b) => if 0 < b then fracPct a b else (-1)
  | none => (-1)

/-- Patterns 5-6 of `_extract_progress_from_output`. -/
def extractAfterStep (cs : List Char) : Int :=
  match searchAt matchProcessingAt cs with
  | some (a, b) => if 0 < b then fracPct a b else extractAfterProcessing cs
  | none => extractAfterProcessing cs

/-- Patterns 3-6 of `_extract_progress_from_output`, reached when neither
`(\d+)%` nor a usable `(\d+)/(\d+)` matched. -/
def extractAfterFrac (cs : List Char) : Int :=
  match searchAt matchProgressAt cs with
  | some n => clampPct n
  | none =>
    match searchAt matchStepAt cs with
    | some (a, b) => if 0 < b then fracPct a b else extractAfterStep cs
    | none => extractAfterStep cs

/-- `ProcessManager._extract_progress_from_output`: the six patterns in
source order; a two-group match with `total = 0` falls through to the
next pattern; `-1` signals that no progress value was found. -/
def extract_progress_from_output (output : String) : Int :=
  let cs := output.toList
  match searchAt matchPctAt cs with
  | some n => clampPct n
  | none =>
    match searchAt matchFracAt cs with
    | some (a, b) => if 0 < b then fracPct a b else extractAfterFrac cs
    | none => extractAfterFrac cs

/-! ## ProcessManager (the Process Supervisor)

State and operations of `ProcessManager` in
`src/scripts/ui/handlers/process_handler.py`.  `active_processes` is the
key list of the `Dict[str, QProcess]` (the `QProcess` objects themselves
live on the OS side; their exit notifications arrive as `exited` events).
`spawn_ok` stands for the outcome of `QProcess.start` +
`waitForStarted(3000)`: `false` covers both a start-timeout and an
exception raised while spawning, which take the same cleanup path in the
source.  The single-shot 100 ms queue timer is the `timer_active` flag;
a `timer` event may fire only while the flag is set and clears it, like a
single-shot `QTimer`. -/

inductive ProcessState
  | queued
  | running
  | finished
  | failed
  | cancelled
deriving DecidableEq, Repr

/-- Dataclass `ProcessInfo`. -/
structure ProcessInfo where
  process_id : String
  command : String
  args : List String
  working_dir : Option String
  state : ProcessState
  exit_code : Option Int := none
  start_time : Option Nat := none
  end_time : Option Nat := none
deriving DecidableEq, Repr

/-- NamedTuple `QueuedProcess`. -/
structure QueuedProcess where
  process_id : String
  command : String
  args : List String
  working_dir : Option String
deriving DecidableEq, Repr

/-- The pyqt signals emitted by `ProcessManager` (including the
`error_occurred` / `status_changed` signals inherited from `BaseHandler`). -/
inductive Signal
  | process_started (process_id : String)
  | process_finished (process_id : String) (exit_code : Int)
  | process_output (process_id line : String)
  | process_error_line (process_id line : String)
  | process_queued (process_id : String)
  | process_cancelled (process_id : String)
  | queue_empty
  | process_progress_updated (process_id : String) (percentage : Int) (message : String)
  | queue_status_changed (queue_length active_count : Nat)
  | error_occurred (error_type error_message : String)
  | status_changed (message : String)
deriving DecidableEq, Repr

/-- The mutable fields of a `ProcessManager` instance. -/
structure PMState where
  active_processes : List String
  process_queue : List QueuedProcess
  process_info : List (String × ProcessInfo)
  max_concurrent_processes : Nat
  auto_process_queue : Bool
  timer_active : Bool
deriving DecidableEq, Repr

/-- A `ProcessManager` right after `__init__` + `_setup` (which starts the
queue timer). -/
def pmInit (max_concurrent : Nat) (auto : Bool) : PMState :=
  { active_processes := []
    process_queue := []
    process_info := []
    max_concurrent_processes := max_concurrent
    auto_process_queue := auto
    timer_active := true }

/-- `ProcessManager.queue_process` with a caller-supplied id (when the id is
`None` the source draws a fresh uuid; the claims concern supplied ids).
Always succeeds: stores a fresh `QUEUED` record under the id, appends a
queue entry, emits `process_queued`, a status message and a queue-status
update, and re-arms the drain timer if auto processing is on. -/
def queue_process (s : PMState) (command : String) (args : List String)
    (working_dir : Option String) (process_id : String) :
    PMState × List Signal × String :=
  let info : ProcessInfo :=
    { process_id := process_id, command := command, args := args
      working_dir := working_dir, state := ProcessState.queued }
  let s1 : PMState :=
    { s with
      process_info := alistSet process_id info s.process_info
      process_queue := s.process_queue ++ [⟨process_id, command, args, working_dir⟩] }
  let s2 : PMState :=
    if s1.auto_process_queue && !s1.timer_active then { s1 with timer_active := true } else s1
  (s2,
   [Signal.process_queued process_id,
    Signal.status_changed ("Process " ++ process_id ++ " queued"),
    Signal.queue_status_changed s1.process_queue.length s1.active_processes.length],
   process_id)

/-- `ProcessManager.start_process` (the `startImmediately` operation).
Rejects a duplicate id or a saturated concurrency cap with an error event.
Otherwise the id is stored in `active_processes` and the info record is
set to `RUNNING` *before* the spawn attempt; on spawn failure
(`spawn_ok = false`) `_cleanup_process` removes the id from
`active_processes`, an error is emitted and `false` is returned, the info
record keeping the state it was just given. -/
def start_process (s : PMState) (process_id command : String) (args : List String)
    (working_dir : Option String) (spawn_ok : Bool) (now : Nat) :
    PMState × List Signal × Bool :=
  if process_id ∈ s.active_processes then
    (s, [Signal.error_occurred "process_error"
           ("Process " ++ process_id ++ " already running")], false)
  else if s.max_concurrent_processes ≤ s.active_processes.length then
    (s, [Signal.error_occurred "process_error"
           ("Maximum concurrent processes (" ++ toString s.max_concurrent_processes
             ++ ") reached")], false)
  else
    let info0 : ProcessInfo :=
      match alistGet process_id s.process_info with
      | none =>
        { process_id := process_id, command := command, args := args
          working_dir := working_dir, state := ProcessState.running }
      | some prev => { prev with state := ProcessState.running }
    let info1 : ProcessInfo := { info0 with start_time := some now }
    let s1 : PMState :=
      { s with
        active_processes := s.active_processes ++ [process_id]
        process_info := alistSet process_id info1 s.process_info }
    if spawn_ok then
      (s1,
       [Signal.process_started process_id,
        Signal.status_changed ("Process " ++ process_id ++ " started"),
        Signal.queue_status_changed s1.process_queue.length s1.active_processes.length],
       true)
    else
      ({ s1 with active_processes := s1.active_processes.erase process_id },
       [Signal.error_occurred "process_error" ("Failed to start process " ++ process_id)],
       false)

/-- `ProcessManager.stop_process`: only bookkeeping is modelled — the
`terminate`/`kill` calls act on the OS process, whose exit is delivered
later as a separate `exited` event.  Note that the id is *not* removed
from `active_processes` here; `_cleanup_process` only runs from
`_handle_finished`. -/
def stop_process (s : PMState) (process_id : String) (force : Bool) (now : Nat) :
    PMState × List Signal × Bool :=
  if process_id ∈ s.active_processes then
    ({ s with
       process_info := alistUpdate process_id
         (fun pi => { pi with state := ProcessState.cancelled, end_time := some now })
         s.process_info },
     [Signal.process_cancelled process_id,
      Signal.status_changed ("Process " ++ process_id ++ " stopped")],
     true)
  else (s, [], false)

/-- Helper for the queue scan in `cancel_process`: remove the first queue
entry carrying the id, or report that none exists. -/
def removeFirstQueued (process_id : String) : List QueuedProcess → Option (List QueuedProcess)
  | [] => none
  | qp :: rest =>
    if qp.process_id = process_id then some rest
    else match removeFirstQueued process_id rest with
      | some rest' => some (qp :: rest')
      | none => none

/-- `ProcessManager.cancel_process`: a queued entry is removed and marked
`CANCELLED`; a running id is delegated to `stop_process` (graceful);
otherwise `false`. -/
def cancel_process (s : PMState) (process_id : String) (now : Nat) :
    PMState × List Signal × Bool :=
  match removeFirstQueued process_id s.process_queue with
  | some queue' =>
    ({ s with
       process_queue := queue'
       process_info := alistUpdate process_id
         (fun pi => { pi with state := ProcessState.cancelled }) s.process_info },
     [Signal.process_cancelled process_id,
      Signal.status_changed ("Process " ++ process_id ++ " cancelled (removed from queue)")],
     true)
  | none =>
    if process_id ∈ s.active_processes then stop_process s process_id false now
    else (s, [], false)

/-- `ProcessManager._handle_finished`: invoked when the `QProcess` of a
started id reports its exit.  Records exit code, end time and the
`FINISHED`/`FAILED` state, emits `process_finished`, runs
`_cleanup_process` (removing the id from `active_processes`), emits a
status line and a queue-status update, and re-arms the drain timer only
when the queue is non-empty. -/
def handle_finished (s : PMState) (process_id : String) (exit_code : Int) (now : Nat) :
    PMState × List Signal :=
  let s1 : PMState :=
    { s with
      process_info := alistUpdate process_id
        (fun pi =>
          { pi with
            exit_code := some exit_code
            end_time := some now
            state := if exit_code = 0 then ProcessState.finished else ProcessState.failed })
        s.process_info }
  let s2 : PMState := { s1 with active_processes := s1.active_processes.erase process_id }
  let s3 : PMState :=
    if s2.auto_process_queue && !s2.process_queue.isEmpty then
      { s2 with timer_active := true }
    else s2
  (s3,
   [Signal.process_finished process_id exit_code,
    Signal.status_changed
      (if exit_code = 0 then "Process " ++ process_id ++ " completed successfully"
       else "Process " ++ process_id ++ " failed"),
    Signal.queue_status_changed s2.process_queue.length s2.active_processes.length])

/-- `ProcessManager._process_queue` (the timer callback body): on an empty
queue emit `queue_empty` when nothing is running; otherwise, if a slot is
free, pop the head entry and try to start it, marking its record `FAILED`
when the start fails; finally re-arm the timer only when entries remain. -/
def process_queue_step (s : PMState) (spawn_ok : Bool) (now : Nat) : PMState × List Signal :=
  match s.process_queue with
  | [] => if s.active_processes.isEmpty then (s, [Signal.queue_empty]) else (s, [])
  | qp :: rest =>
    if s.max_concurrent_processes ≤ s.active_processes.length then (s, [])
    else
      let s1 : PMState := { s with process_queue := rest }
      let r := start_process s1 qp.process_id qp.command qp.args qp.working_dir spawn_ok now
      let s3 : PMState :=
        if r.2.2 then r.1
        else
          { r.1 with
            process_info := alistUpdate qp.process_id
              (fun pi => { pi with state := ProcessState.failed }) r.1.process_info }
      let s4 : PMState :=
        if s3.auto_process_queue && !s3.process_queue.isEmpty then
          { s3 with timer_active := true }
        else s3
      (s4, r.2.1)

/-- A tick of the single-shot queue timer: only possible while armed, and
consuming the shot before running `_process_queue`. -/
def timer_fire (s : PMState) (spawn_ok : Bool) (now : Nat) : PMState × List Signal :=
  if s.timer_active then process_queue_step { s with timer_active := false } spawn_ok now
  else (s, [])

/-- The event alphabet of claim C4: `enqueue`, `startImmediately`, `cancel`,
queue-drain timer ticks, and OS termination notifications. -/
inductive PMEvent
  | enqueue (process_id command : String) (args : List String) (working_dir : Option String)
  | start_now (process_id command : String) (args : List String)
      (working_dir : Option String) (spawn_ok : Bool) (now : Nat)
  | cancel (process_id : String) (now : Nat)
  | timer (spawn_ok : Bool) (now : Nat)
  | exited (process_id : String) (exit_code : Int) (now : Nat)
deriving DecidableEq, Repr

/-- Dispatch one event against the manager.  An `exited` notification can
only be delivered for an id whose `QProcess` is still connected, i.e. one
still present in `active_processes` (cleanup disconnects the signal). -/
def pmStep (s : PMState) (e : PMEvent) : PMState × List Signal :=
  match e with
  | PMEvent.enqueue pid cmd args wd =>
    let r := queue_process s cmd args wd pid
    (r.1, r.2.1)
  | PMEvent.start_now pid cmd args wd ok now =>
    let r := start_process s pid cmd args wd ok now
    (r.1, r.2.1)
  | PMEvent.cancel pid now =>
    let r := cancel_process s pid now
    (r.1, r.2.1)
  | PMEvent.timer ok now => timer_fire s ok now
  | PMEvent.exited pid code now =>
    if pid ∈ s.active_processes then handle_finished s pid code now else (s, [])

/-- Run a sequence of events, concatenating the emitted signals. -/
def pmRun (s : PMState) : List PMEvent → PMState × List Signal
  | [] => (s, [])
  | e :: es =>
    let r1 := pmStep s e
    let r2 := pmRun r1.1 es
    (r2.1, r1.2 ++ r2.2)

/-! ## Concurrency-cap invariant (claim C4) -/

/-- The cap invariant: never more running processes than the configured
concurrency limit. -/
def capOK (s : PMState) : Prop :=
  s.active_processes.length ≤ s.max_concurrent_processes

theorem start_process_invariants (s : PMState) (pid cmd : String) (args : List String)
    (wd : Option String) (ok : Bool) (now : Nat)
    (h : s.active_processes.length ≤ s.max_concurrent_processes) :
    (start_process s pid cmd args wd ok now).1.active_processes.length ≤
      (start_process s pid cmd args wd ok now).1.max_concurrent_processes ∧
    (start_process s pid cmd args wd ok now).1.max_concurrent_processes =
      s.max_concurrent_processes := by
  by_cases h1 : pid ∈ s.active_processes
  · simp [start_process, h1, h]
  · by_cases h2 : s.max_concurrent_processes ≤ s.active_processes.length
    · simp [start_process, h1, h2, h]
    · cases ok with
      | true =>
        simp only [start_process, if_neg h1, if_neg h2, if_true]
        refine ⟨?_, by simp⟩
        simp only [List.length_append, List.length_cons, List.length_nil]
        omega
      | false =>
        simp only [start_process, if_neg h1, if_neg h2, Bool.false_eq_true, if_false]
        refine ⟨?_, by simp⟩
        have hle := (List.erase_sublist pid (s.active_processes ++ [pid])).length_le
        simp only [List.length_append, List.length_cons, List.length_nil] at hle
        exact le_trans hle (by omega)

theorem queue_process_active (s : PMState) (cmd : String) (args : List String)
    (wd : Option String) (pid : String) :
    (queue_process s cmd args wd pid).1.active_processes = s.active_processes ∧
    (queue_process s cmd args wd pid).1.max_concurrent_processes =
      s.max_concurrent_processes := by
  simp only [queue_process]
  split <;> exact ⟨rfl, rfl⟩

theorem stop_process_active (s : PMState) (pid : String) (force : Bool) (now : Nat) :
    (stop_process s pid force now).1.active_processes = s.active_processes ∧
    (stop_process s pid force now).1.max_concurrent_processes =
      s.max_concurrent_processes := by
  simp only [stop_process]
  split <;> exact ⟨rfl, rfl⟩

theorem cancel_process_active (s : PMState) (pid : String) (now : Nat) :
    (cancel_process s pid now).1.active_processes = s.active_processes ∧
    (cancel_process s pid now).1.max_concurrent_processes =
      s.max_concurrent_processes := by
  simp only [cancel_process]
  split
  · exact ⟨rfl, rfl⟩
  · split
    · exact stop_process_active s pid false now
    · exact ⟨rfl, rfl⟩

theorem handle_finished_active (s : PMState) (pid : String) (code : Int) (now : Nat) :
    (handle_finished s pid code now).1.active_processes = s.active_processes.erase pid ∧
    (handle_finished s pid code now).1.max_concurrent_processes =
      s.max_concurrent_processes := by
  simp only [handle_finished]
  split <;> exact ⟨rfl, rfl⟩

theorem process_queue_step_invariants (s : PMState) (ok : Bool) (now : Nat)
    (h : s.active_processes.length ≤ s.max_concurrent_processes) :
    (process_queue_step s ok now).1.active_processes.length ≤
      (process_queue_step s ok now).1.max_concurrent_processes ∧
    (process_queue_step s ok now).1.max_concurrent_processes =
      s.max_concurrent_processes := by
  rcases hq : s.process_queue with _ | ⟨qp, rest⟩
  · simp only [process_queue_step, hq]
    split <;> exact ⟨h, by simp⟩
  · simp only [process_queue_step, hq]
    by_cases hc : s.max_concurrent_processes ≤ s.active_processes.length
    · simp only [if_pos hc]
      exact ⟨h, by simp⟩
    · simp only [if_neg hc]
      have H := start_process_invariants { s with process_queue := rest }
        qp.process_id qp.command qp.args qp.working_dir ok now h
      constructor
      · split <;> split <;> exact H.1
      · split <;> split <;> exact H.2

theorem timer_fire_invariants (s : PMState) (ok : Bool) (now : Nat)
    (h : s.active_processes.length ≤ s.max_concurrent_processes) :
    (timer_fire s ok now).1.active_processes.length ≤
      (timer_fire s ok now).1.max_concurrent_processes ∧
    (timer_fire s ok now).1.max_concurrent_processes = s.max_concurrent_processes := by
  simp only [timer_fire]
  split
  · exact process_queue_step_invariants { s with timer_active := false } ok now h
  · exact ⟨h, by simp⟩

theorem pmStep_invariants (s : PMState) (e : PMEvent) (h : capOK s) :
    capOK (pmStep s e).1 ∧
    (pmStep s e).1.max_concurrent_processes = s.max_concurrent_processes := by
  unfold capOK at h ⊢
  cases e with
  | enqueue pid cmd args wd =>
    have H := queue_process_active s cmd args wd pid
    simp only [pmStep, H.1, H.2]
    exact ⟨h, by simp⟩
  | start_now pid cmd args wd ok now =>
    have H := start_process_invariants s pid cmd args wd ok now h
    simp only [pmStep]
    exact H
  | cancel pid now =>
    have H := cancel_process_active s pid now
    simp only [pmStep, H.1, H.2]
    exact ⟨h, by simp⟩
  | timer ok now =>
    simp only [pmStep]
    exact timer_fire_invariants s ok now h
  | exited pid code now =>
    simp only [pmStep]
    split
    · have H := handle_finished_active s pid code now
      rw [H.1, H.2]
      refine ⟨le_trans (List.erase_sublist pid s.active_processes).length_le h, rfl⟩
    · exact ⟨h, by simp⟩

theorem pmRun_invariants (events : List PMEvent) :
    ∀ s : PMState, capOK s →
      capOK (pmRun s events).1 ∧
      (pmRun s events).1.max_concurrent_processes = s.max_concurrent_processes := by
  induction events with
  | nil => intro s h; exact ⟨h, rfl⟩
  | cons e es ih =>
    intro s h
    have h1 := pmStep_invariants s e h
    have h2 := ih (pmStep s e).1 h1.1
    unfold pmRun
    exact ⟨h2.1, h2.2.trans h1.2⟩

/-- Claim C4: for every sequence of enqueue, startImmediately, cancel,
queue-drain and termination events against a manager configured with
`max_concurrent_processes = k`, the number of simultaneously running
processes never exceeds `k` — here stated for the state after every finite
event prefix, hence at every point of the run. -/
theorem cap_never_exceeded (k : Nat) (auto : Bool) (events : List PMEvent) :
    ((pmRun (pmInit k auto) events).1).active_processes.length ≤ k := by
  have h0 : capOK (pmInit k auto) := by
    unfold capOK pmInit
    simp
  have h := pmRun_invariants events (pmInit k auto) h0
  unfold capOK at h
  have hmax : (pmRun (pmInit k auto) events).1.max_concurrent_processes = k := h.2
  omega

/-! ## Pipeline Tracker: `ProcessingState` and the `PDFHandler` finish handlers

Translated from `src/scripts/ui/handlers/pdf_handler.py`.  The data
directories are derived in the source from the module's location on disk;
they are fixed strings here, which is irrelevant to the claims.  Path
helpers model `os.path.join` for a relative second argument and
`pathlib.Path(...).stem` for ordinary `name.ext` file names. -/

/-- `str.startswith` on character lists. -/
def listStartsWith : List Char → List Char → Bool
  | [], _ => true
  | _ :: _, [] => false
  | p :: ps, c :: cs => p == c && listStartsWith ps cs

/-- Python `s.startswith(tag)`. -/
def strStartsWith (s tag : String) : Bool := listStartsWith tag.toList s.toList

/-- Exact (case-sensitive) literal match at the head; returns the rest. -/
def matchExact : List Char → List Char → Option (List Char)
  | [], rest => some rest
  | _ :: _, [] => none
  | p :: ps, c :: cs => if p = c then matchExact ps cs else none

/-- Replace every non-overlapping occurrence of the pattern `p :: ps`,
scanning left to right, by `rep`; the fuel (one unit per consumed input
character suffices) keeps the recursion structural. -/
def listReplaceGo (p : Char) (ps rep : List Char) : Nat → List Char → List Char
  | _, [] => []
  | 0, s => s
  | fuel + 1, c :: cs =>
    if p = c then
      match matchExact ps cs with
      | some rest => rep ++ listReplaceGo p ps rep fuel rest
      | none => c :: listReplaceGo p ps rep fuel cs
    else c :: listReplaceGo p ps rep fuel cs

/-- Python `s.replace(pat, rep)` for a non-empty pattern (the source only
replaces the non-empty stage tags). -/
def strReplace (s pat rep : String) : String :=
  match pat.toList with
  | [] => s
  | p :: ps => String.mk (listReplaceGo p ps rep.toList s.toList.length s.toList)

/-- Split a character list on a separator character (like `str.split`). -/
def splitOnChar (sep : Char) : List Char → List (List Char)
  | [] => [[]]
  | c :: cs =>
    let r := splitOnChar sep cs
    if c = sep then [] :: r
    else match r with
      | [] => [[c]]
      | g :: gs => (c :: g) :: gs

/-- `_get_pdf_directory` (resolved relative to the module location). -/
def pdf_directory : String := "data/pdf"

/-- `_get_txt_output_directory`. -/
def txt_output_directory : String := "data/txt_input"

/-- `_get_markdown_output_directory`. -/
def markdown_output_directory : String := "data/markdown"

/-- `os.path.join a b` for a relative `b`. -/
def ospJoin (a b : String) : String := a ++ "/" ++ b

/-- `pathlib.Path(p).stem`: the final path component without its last
extension (for components that are not dot-files). -/
def pathStem (p : String) : String :=
  let base := (splitOnChar '/' p.toList).getLastD p.toList
  let parts := splitOnChar '.' base
  match parts with
  | [] => String.mk base
  | [x] => String.mk x
  | _ => String.mk (List.intercalate ['.'] parts.dropLast)

/-- One entry of `ProcessingState.processing_history`. -/
structure HistoryEntry where
  pdf_path : String
  process_id : String
  success : Bool
  output_path : Option String
  timestamp : Nat
deriving DecidableEq, Repr

/-- Dataclass `ProcessingState`; `active_processes` maps a process id to
the pdf path it is working on. -/
structure ProcessingState where
  current_pdf : Option String := none
  processing_queue : List String := []
  active_processes : List (String × String) := []
  last_output_path : Option String := none
  processing_history : List HistoryEntry := []
  failed_pdfs : List String := []
deriving DecidableEq, Repr

/-- Python truthiness of an `Optional[str]` (`None` and `""` are falsy). -/
def optStrTruthy : Option String → Bool
  | none => false
  | some s => !(s == "")

/-- `ProcessingState.add_to_queue`. -/
def ProcessingState.add_to_queue (ps : ProcessingState) (pdf_path : String) : ProcessingState :=
  if pdf_path ∈ ps.processing_queue then ps
  else { ps with processing_queue := ps.processing_queue ++ [pdf_path] }

/-- `ProcessingState.remove_from_queue` (`list.remove`: first occurrence). -/
def ProcessingState.remove_from_queue (ps : ProcessingState) (pdf_path : String) :
    ProcessingState :=
  { ps with processing_queue := ps.processing_queue.erase pdf_path }

/-- `ProcessingState.start_processing`. -/
def ProcessingState.start_processing (ps : ProcessingState) (pdf_path process_id : String) :
    ProcessingState :=
  let ps1 := { ps with
    current_pdf := some pdf_path
    active_processes := alistSet process_id pdf_path ps.active_processes }
  ps1.remove_from_queue pdf_path

/-- `ProcessingState.finish_processing`: a no-op for an untracked process
id; otherwise removes the active entry, appends to history, updates
`last_output_path` on success (with a truthy path) or `failed_pdfs` on
failure, and clears `current_pdf` when it pointed at this pdf. -/
def ProcessingState.finish_processing (ps : ProcessingState) (process_id : String)
    (success : Bool) (output_path : Option String) (ts : Nat) : ProcessingState :=
  match alistGet process_id ps.active_processes with
  | none => ps
  | some pdf_path =>
    let ps1 := { ps with active_processes := alistRemove process_id ps.active_processes }
    let ps2 := { ps1 with processing_history := ps1.processing_history ++
      [{ pdf_path := pdf_path, process_id := process_id, success := success
         output_path := output_path, timestamp := ts }] }
    let ps3 :=
      if success && optStrTruthy output_path then { ps2 with last_output_path := output_path }
      else if !success then { ps2 with failed_pdfs := ps2.failed_pdfs ++ [pdf_path] }
      else ps2
    if ps3.current_pdf = some pdf_path then { ps3 with current_pdf := none } else ps3

/-- The pyqt signals of `PDFHandler` relevant to the finish handlers
(status-manager toast notifications are display-only and not modelled). -/
inductive PdfSignal
  | pdf_segmentation_finished (pdf_path : String) (success : Bool)
  | llm_processing_finished (pdf_path : String) (success : Bool)
  | pdf_processing_finished (pdf_path : String) (success : Bool)
  | processing_progress (pdf_path : String) (step : Nat) (message : String)
  | progress_finished (progress_id : String) (success : Bool) (message : String)
  | status (message : String)
deriving DecidableEq, Repr

/-- The mutable `PDFHandler` fields the finish handlers touch. -/
structure PdfHandlerState where
  processing_state : ProcessingState
  active_progress_ids : List (String × String)
deriving DecidableEq, Repr

/-- Result of a `PDFHandler` finish handler: the new handler state, the
emitted signals, and the ids of any processes the handler asked the
Supervisor to start (`launched` collects every `start_process` request the
handler body makes; the source's finish handlers make none). -/
structure PdfStepResult where
  state : PdfHandlerState
  signals : List PdfSignal
  launched : List String
deriving DecidableEq, Repr

/-- `PDFHandler._handle_segmentation_finished`. -/
def handle_segmentation_finished (h : PdfHandlerState) (process_id : String)
    (success : Bool) (ts : Nat) : PdfStepResult :=
  let pdf_name := strReplace process_id "pdf_segment_" ""
  let pdf_path := ospJoin pdf_directory pdf_name
  let output_path : Option String :=
    if success then some (ospJoin txt_output_directory (pathStem pdf_path)) else none
  let ps' := h.processing_state.finish_processing process_id success output_path ts
  let progressPart :=
    match alistGet process_id h.active_progress_ids with
    | some progress_id =>
      (alistRemove process_id h.active_progress_ids,
       [PdfSignal.progress_finished progress_id success
          (if success then "Segmentation completed" else "Segmentation failed")])
    | none => (h.active_progress_ids, ([] : List PdfSignal))
  let tailSigs :=
    if success then
      [PdfSignal.processing_progress pdf_path 1 "PDF segmentation completed",
       PdfSignal.status ("Segmentation completed: " ++ pdf_name)]
    else [PdfSignal.status ("Segmentation failed: " ++ pdf_name)]
  { state := { processing_state := ps', active_progress_ids := progressPart.1 }
    signals := PdfSignal.pdf_segmentation_finished pdf_path success
      :: progressPart.2 ++ tailSigs
    launched := [] }

/-- `PDFHandler._handle_llm_processing_finished`. -/
def handle_llm_processing_finished (h : PdfHandlerState) (process_id : String)
    (success : Bool) (ts : Nat) : PdfStepResult :=
  let pdf_name := strReplace process_id "llm_process_" ""
  let pdf_path := ospJoin pdf_directory pdf_name
  let output_path : Option String :=
    if success then some (ospJoin markdown_output_directory (pathStem pdf_path)) else none
  let ps' := h.processing_state.finish_processing process_id success output_path ts
  let progressPart :=
    match alistGet process_id h.active_progress_ids with
    | some progress_id =>
      (alistRemove process_id h.active_progress_ids,
       [PdfSignal.progress_finished progress_id success
          (if success then "LLM processing completed" else "LLM processing failed")])
    | none => (h.active_progress_ids, ([] : List PdfSignal))
  let tailSigs :=
    if success then
      [PdfSignal.processing_progress pdf_path 2 "LLM processing completed",
       PdfSignal.status ("LLM processing completed: " ++ pdf_name)]
    else [PdfSignal.status ("LLM processing failed: " ++ pdf_name)]
  { state := { processing_state := ps', active_progress_ids := progressPart.1 }
    signals := PdfSignal.llm_processing_finished pdf_path success
      :: progressPart.2 ++ tailSigs
    launched := [] }

/-- `PDFHandler._handle_pipeline_finished`. -/
def handle_pipeline_finished (h : PdfHandlerState) (process_id : String)
    (success : Bool) (ts : Nat) : PdfStepResult :=
  let pdf_name := strReplace process_id "pdf_pipeline_" ""
  let pdf_path := ospJoin pdf_directory pdf_name
  let output_path : Option String :=
    if success then some (ospJoin markdown_output_directory (pathStem pdf_path)) else none
  let ps' := h.processing_state.finish_processing process_id success output_path ts
  let progressPart :=
    match alistGet process_id h.active_progress_ids with
    | some progress_id =>
      (alistRemove process_id h.active_progress_ids,
       [PdfSignal.progress_finished progress_id success
          (if success then "Full pipeline completed" else "Full pipeline failed")])
    | none => (h.active_progress_ids, ([] : List PdfSignal))
  let tailSigs :=
    if success then
      [PdfSignal.processing_progress pdf_path 3 "Full pipeline completed",
       PdfSignal.status ("Full processing completed: " ++ pdf_name)]
    else [PdfSignal.status ("Full processing failed: " ++ pdf_name)]
  { state := { processing_state := ps', active_progress_ids := progressPart.1 }
    signals := PdfSignal.pdf_processing_finished pdf_path success
      :: progressPart.2 ++ tailSigs
    launched := [] }

/-- `PDFHandler._on_process_finished`: dispatch on the id's leading tag;
ids with no recognised tag are ignored. -/
def on_process_finished (h : PdfHandlerState) (process_id : String) (exit_code : Int)
    (ts : Nat) : PdfStepResult :=
  let success := exit_code == 0
  if strStartsWith process_id "pdf_segment_" then
    handle_segmentation_finished h process_id success ts
  else if strStartsWith process_id "llm_process_" then
    handle_llm_processing_finished h process_id success ts
  else if strStartsWith process_id "pdf_pipeline_" then
    handle_pipeline_finished h process_id success ts
  else { state := h, signals := [], launched := [] }

/-! ## Claim theorems -/

/-- The specification's reading of the fraction patterns:
`round(current/total*100)` (rounding the exact nonnegative quotient to the
nearest integer), clamped to `[0, 100]` like the source clamps.  Stated
from the spec's words, for comparison with the source's truncation. -/
def spec_round_fraction_pct (current total : Nat) : Nat :=
  min 100 ((2 * (current * 100) + total) / (2 * total))

/-- Claim C7: the four reference cases of the progress extractor, with the
source's `-1` sentinel standing for "none". -/
theorem reference_progress_cases :
    extract_progress_from_output "Processing 50%" = 50 ∧
    extract_progress_from_output "Step 3 of 5" = 60 ∧
    extract_progress_from_output "[4/10]" = 40 ∧
    extract_progress_from_output "no progress info" = -1 := by
  refine ⟨?_, ?_, ?_, ?_⟩ <;> decide

/-- Claim C6, counterexample: on the line `"2/3"` the first matching
pattern is the bare fraction `2/3` with positive total, but the extractor
returns the truncation `66`, not the rounding `67` the claim demands. -/
theorem fraction_rounding_counterexample :
    extract_progress_from_output "2/3" = 66 ∧
    spec_round_fraction_pct 2 3 = 67 ∧ (66 : Int) ≠ 67 := by
  refine ⟨by decide, by decide, by decide⟩

/-- Claim C6 (amended): when the first matching pattern is a fraction
`current/total` with `total > 0` — either the bare `(\d+)/(\d+)` pattern
or `Step n of m` — the extractor returns the truncation toward zero of
the double-precision evaluation of `(current/total)*100` clamped to
`[0, 100]`, rather than the rounding stated by the spec.  The bound
hypotheses keep the quotient inside the double range, where the
double model is exact; beyond it CPython raises an uncaught
`OverflowError` instead of returning a value. -/
theorem fraction_patterns_truncate (line : String) (a b n m : Nat) :
    (searchAt matchPctAt line.toList = none →
     searchAt matchFracAt line.toList = some (a, b) → 0 < b → a < b * 2 ^ 200 →
     extract_progress_from_output line =
       Int.ofNat (min 100 (pyFracTimes100Trunc a b))) ∧
    (searchAt matchPctAt line.toList = none →
     searchAt matchFracAt line.toList = none →
     searchAt matchProgressAt line.toList = none →
     searchAt matchStepAt line.toList = some (n, m) → 0 < m → n < m * 2 ^ 200 →
     extract_progress_from_output line =
       Int.ofNat (min 100 (pyFracTimes100Trunc n m))) := by
  constructor
  · intro h1 h2 hb hbound
    simp only [extract_progress_from_output, h1, h2, if_pos hb, fracPct]
  · intro h1 h2 h3 h4 hm hbound
    simp only [extract_progress_from_output, extractAfterFrac, h1, h2, h3, h4,
      if_pos hm, fracPct]

/-- Witness for `fraction_patterns_truncate`: both amended branches at
concrete lines (`"2/3"` for the bare fraction, `"Step 3 of 5"` for the
step form). -/
theorem fraction_patterns_truncate_witness :
    extract_progress_from_output "2/3" =
      Int.ofNat (min 100 (pyFracTimes100Trunc 2 3)) ∧
    extract_progress_from_output "Step 3 of 5" =
      Int.ofNat (min 100 (pyFracTimes100Trunc 3 5)) :=
  ⟨(fraction_patterns_truncate "2/3" 2 3 0 1).1 (by decide) (by decide) (by decide)
     (by decide),
   (fraction_patterns_truncate "Step 3 of 5" 0 1 3 5).2 (by decide) (by decide)
     (by decide) (by decide) (by decide) (by decide)⟩

/-- Claim C9: `queue_process` with a supplied id unconditionally stores a
fresh `QUEUED` record over whatever was under that id (erasing its state,
exit code and timestamps) and appends to the queue tail, even when the id
is already queued or running — so the count of queue entries carrying the
id always grows by one, allowing duplicates. -/
theorem queue_process_overwrites (s : PMState) (command : String) (args : List String)
    (working_dir : Option String) (process_id : String) :
    (queue_process s command args working_dir process_id).2.2 = process_id ∧
    alistGet process_id (queue_process s command args working_dir process_id).1.process_info =
      some { process_id := process_id, command := command, args := args
             working_dir := working_dir, state := ProcessState.queued
             exit_code := none, start_time := none, end_time := none } ∧
    (queue_process s command args working_dir process_id).1.process_queue =
      s.process_queue ++ [⟨process_id, command, args, working_dir⟩] ∧
    ((queue_process s command args working_dir process_id).1.process_queue.filter
        (fun qp => qp.process_id == process_id)).length =
      (s.process_queue.filter (fun qp => qp.process_id == process_id)).length + 1 := by
  simp only [queue_process]
  split <;>
    exact ⟨by trivial, alistGet_set_self _ _ _, by trivial, by simp [List.filter_append]⟩

/-- Claim C8: `start_process` called with an id that is already active, or
while the cap is saturated, returns `false`, emits exactly one error
event, and leaves the whole manager state (queue included) unchanged. -/
theorem start_immediately_rejected (s : PMState) (process_id command : String)
    (args : List String) (working_dir : Option String) (spawn_ok : Bool) (now : Nat)
    (h : process_id ∈ s.active_processes ∨
      s.max_concurrent_processes ≤ s.active_processes.length) :
    (start_process s process_id command args working_dir spawn_ok now).1 = s ∧
    (start_process s process_id command args working_dir spawn_ok now).2.2 = false ∧
    ∃ msg, (start_process s process_id command args working_dir spawn_ok now).2.1 =
      [Signal.error_occurred "process_error" msg] := by
  by_cases h1 : process_id ∈ s.active_processes
  · simp only [start_process, if_pos h1]
    exact ⟨by trivial, by trivial, _, by trivial⟩
  · have h2 : s.max_concurrent_processes ≤ s.active_processes.length := h.resolve_left h1
    simp only [start_process, if_neg h1, if_pos h2]
    exact ⟨by trivial, by trivial, _, by trivial⟩

/-- A manager whose single concurrency slot is taken by process `"a"`. -/
def saturatedState : PMState :=
  { active_processes := ["a"]
    process_queue := []
    process_info := []
    max_concurrent_processes := 1
    auto_process_queue := true
    timer_active := true }

/-- Witness for `start_immediately_rejected`: starting `"b"` while `"a"`
occupies the only slot. -/
theorem start_immediately_rejected_witness :
    (start_process saturatedState "b" "c" [] none true 0).1 = saturatedState ∧
    (start_process saturatedState "b" "c" [] none true 0).2.2 = false ∧
    ∃ msg, (start_process saturatedState "b" "c" [] none true 0).2.1 =
      [Signal.error_occurred "process_error" msg] :=
  start_immediately_rejected saturatedState "b" "c" [] none true 0 (Or.inr (by decide))

/-- Claim C3, counterexample: a spawn failure on an immediate start does
return `false`, but the info record — set to `RUNNING` before the spawn
attempt — is left in state `RUNNING`, contradicting "the record never
transitions to the Running state". -/
theorem spawn_failure_leaves_running_record :
    (start_process (pmInit 1 true) "p" "c" [] none false 0).2.2 = false ∧
    (alistGet "p" (start_process (pmInit 1 true) "p" "c" [] none false 0).1.process_info).map
      ProcessInfo.state = some ProcessState.running := by
  refine ⟨by decide, by decide⟩

/-- Claim C3 (amended): a start attempt that fails to spawn returns
`false`, emits exactly the spawn-failure error event, releases the
occupied slot (the active set and the queue end up unchanged, so draining
continues) and never emits `process_started`; however the info record's
state field, assigned `RUNNING` before the spawn attempt, remains
`RUNNING` (the queue-drain path later overwrites it to `FAILED`). -/
theorem spawn_failure_rejected_slot_released (s : PMState) (process_id command : String)
    (args : List String) (working_dir : Option String) (now : Nat)
    (h1 : process_id ∉ s.active_processes)
    (h2 : s.active_processes.length < s.max_concurrent_processes) :
    (start_process s process_id command args working_dir false now).2.2 = false ∧
    (start_process s process_id command args working_dir false now).1.active_processes =
      s.active_processes ∧
    (start_process s process_id command args working_dir false now).1.process_queue =
      s.process_queue ∧
    (start_process s process_id command args working_dir false now).2.1 =
      [Signal.error_occurred "process_error" ("Failed to start process " ++ process_id)] ∧
    (alistGet process_id
        (start_process s process_id command args working_dir false now).1.process_info).map
      ProcessInfo.state = some ProcessState.running := by
  have h2' : ¬ s.max_concurrent_processes ≤ s.active_processes.length := by omega
  simp only [start_process, if_neg h1, if_neg h2', Bool.false_eq_true, if_false]
  refine ⟨by trivial, ?_, by trivial, by trivial, ?_⟩
  · rw [List.erase_append_right _ h1]
    simp
  · rw [alistGet_set_self]
    cases halist : alistGet process_id s.process_info <;> simp [halist]

/-- Witness for `spawn_failure_rejected_slot_released`: a failing spawn on
a fresh manager. -/
theorem spawn_failure_rejected_slot_released_witness :
    (start_process (pmInit 1 true) "p" "c" [] none false 5).2.2 = false ∧
    (start_process (pmInit 1 true) "p" "c" [] none false 5).1.active_processes =
      (pmInit 1 true).active_processes ∧
    (start_process (pmInit 1 true) "p" "c" [] none false 5).1.process_queue =
      (pmInit 1 true).process_queue ∧
    (start_process (pmInit 1 true) "p" "c" [] none false 5).2.1 =
      [Signal.error_occurred "process_error" ("Failed to start process " ++ "p")] ∧
    (alistGet "p" (start_process (pmInit 1 true) "p" "c" [] none false 5).1.process_info).map
      ProcessInfo.state = some ProcessState.running :=
  spawn_failure_rejected_slot_released (pmInit 1 true) "p" "c" [] none 5
    (by decide) (by decide)

/-- A tracker state with one unrelated pdf being segmented. -/
def trackedState : ProcessingState :=
  { current_pdf := some "data/pdf/a.pdf"
    processing_queue := ["data/pdf/b.pdf"]
    active_processes := [("pdf_segment_a.pdf", "data/pdf/a.pdf")]
    last_output_path := some "data/txt_input/old"
    processing_history := []
    failed_pdfs := ["data/pdf/c.pdf"] }

/-- Claim C10: `finish_processing` with a process id that is not tracked in
`active_processes` leaves the whole `ProcessingState` unchanged. -/
theorem finish_processing_untracked_noop (ps : ProcessingState) (process_id : String)
    (success : Bool) (output_path : Option String) (ts : Nat)
    (h : alistGet process_id ps.active_processes = none) :
    ps.finish_processing process_id success output_path ts = ps := by
  unfold ProcessingState.finish_processing
  rw [h]

/-- Witness for `finish_processing_untracked_noop`: finishing an unknown
process id against `trackedState`. -/
theorem finish_processing_untracked_noop_witness :
    trackedState.finish_processing "llm_process_zzz" true (some "out") 3 = trackedState :=
  finish_processing_untracked_noop trackedState "llm_process_zzz" true (some "out") 3
    (by decide)

/-- A queue entry never matching the scanned id leaves the scan empty. -/
theorem removeFirstQueued_eq_none (process_id : String) (l : List QueuedProcess)
    (h : ∀ qp ∈ l, qp.process_id ≠ process_id) : removeFirstQueued process_id l = none := by
  induction l with
  | nil => rfl
  | cons qp rest ih =>
    have h1 : qp.process_id ≠ process_id := h qp (List.mem_cons_self _ _)
    simp only [removeFirstQueued, if_neg h1]
    rw [ih (fun q hq => h q (List.mem_cons_of_mem _ hq))]

/-- The manager after starting `"p"` and cancelling it while running: the
record is in the terminal state `CANCELLED` yet `"p"` is still in
`active_processes` because only `_handle_finished` removes it. -/
def cancelWindowState : PMState :=
  (pmRun (pmInit 1 true)
    [PMEvent.start_now "p" "c" [] none true 0, PMEvent.cancel "p" 1]).1

/-- Claim C1, counterexample: with the record of `"p"` already in the
terminal state `CANCELLED`, a second `cancel_process` returns `true` (the
claim demands `false`) and re-emits the `process_cancelled` terminal
event, and the exit notification that follows the kill moves the record
out of its terminal state, to `FAILED`. -/
theorem cancel_terminal_changes_state :
    (alistGet "p" cancelWindowState.process_info).map ProcessInfo.state =
      some ProcessState.cancelled ∧
    "p" ∈ cancelWindowState.active_processes ∧
    (cancel_process cancelWindowState "p" 2).2.2 = true ∧
    Signal.process_cancelled "p" ∈ (cancel_process cancelWindowState "p" 2).2.1 ∧
    (alistGet "p"
        (pmStep cancelWindowState (PMEvent.exited "p" 1 3)).1.process_info).map
      ProcessInfo.state = some ProcessState.failed := by
  refine ⟨by decide, by decide, by decide, by decide, by decide⟩

/-- Claim C1 (amended): once a terminal record has been cleaned up — it is
neither in the pending queue nor in `active_processes`, as after
`_handle_finished` ran or a queued entry was cancelled — `cancel_process`
returns `false`, changes nothing and emits nothing.  (A record cancelled
while running, by contrast, stays in `active_processes` until its exit
event arrives; in that window a second cancel returns `true` again,
re-emits `process_cancelled`, and the exit event overwrites the terminal
`CANCELLED` state with `FINISHED`/`FAILED`.) -/
theorem cancel_cleaned_up_terminal_noop (s : PMState) (process_id : String) (now : Nat)
    (hq : ∀ qp ∈ s.process_queue, qp.process_id ≠ process_id)
    (ha : process_id ∉ s.active_processes) :
    cancel_process s process_id now = (s, [], false) := by
  unfold cancel_process
  rw [removeFirstQueued_eq_none process_id s.process_queue hq]
  simp only
  rw [if_neg ha]

/-- The manager after `"p"` has run and exited with code 0: its record is
terminal (`FINISHED`) and the id has left both the queue and the active
set. -/
def finishedState : PMState :=
  (pmRun (pmInit 1 true)
    [PMEvent.start_now "p" "c" [] none true 0, PMEvent.exited "p" 0 1]).1

/-- Witness for `cancel_cleaned_up_terminal_noop`: cancelling the
`FINISHED` record of `"p"` in `finishedState`. -/
theorem cancel_cleaned_up_terminal_noop_witness :
    (alistGet "p" finishedState.process_info).map ProcessInfo.state =
      some ProcessState.finished ∧
    cancel_process finishedState "p" 9 = (finishedState, [], false) :=
  ⟨by decide,
   cancel_cleaned_up_terminal_noop finishedState "p" 9 (by decide) (by decide)⟩

/-- Number of `process_finished` events in an emission trace. -/
def countFinished (l : List Signal) : Nat :=
  (l.filter fun sg =>
    match sg with
    | Signal.process_finished _ _ => true
    | _ => false).length

/-- Number of `queue_empty` events in an emission trace. -/
def countQueueEmpty (l : List Signal) : Nat :=
  (l.filter fun sg =>
    match sg with
    | Signal.queue_empty => true
    | _ => false).length

/-- The claim-C5 scenario with `N = 1`: enqueue one process under
`max_concurrent_processes = 1`, let the drain timer fire and start it, and
let it exit with code 0. -/
def drainEvents : List PMEvent :=
  [PMEvent.enqueue "p1" "cmd" [] none, PMEvent.timer true 0, PMEvent.exited "p1" 0 1]

/-- The manager after the claim-C5 scenario has fully played out. -/
def drainFinal : PMState := (pmRun (pmInit 1 true) drainEvents).1

/-- Claim C5: draining one successful process yields exactly one
`process_finished` event but *zero* `queue_empty` events — after the final
exit the queue is empty, nothing runs, yet the single-shot timer was left
unarmed (`_handle_finished` only re-arms it when the queue is non-empty),
so `_process_queue` never runs again: every further timer or exit event is
a strict no-op, and the `queue_empty` emission the claim requires never
happens. -/
theorem queue_empty_not_emitted_after_drain :
    countFinished (pmRun (pmInit 1 true) drainEvents).2 = 1 ∧
    countQueueEmpty (pmRun (pmInit 1 true) drainEvents).2 = 0 ∧
    drainFinal.process_queue = [] ∧
    drainFinal.active_processes = [] ∧
    drainFinal.timer_active = false ∧
    (∀ ok : Bool, ∀ now : Nat, pmStep drainFinal (PMEvent.timer ok now) = (drainFinal, [])) ∧
    (∀ pid : String, ∀ code : Int, ∀ now : Nat,
      pmStep drainFinal (PMEvent.exited pid code now) = (drainFinal, [])) := by
  refine ⟨by decide, by decide, by decide, by decide, by decide, ?_, ?_⟩
  · intro ok now
    have ht : drainFinal.timer_active = false := by decide
    simp [pmStep, timer_fire, ht]
  · intro pid code now
    have ha : drainFinal.active_processes = [] := by decide
    simp [pmStep, ha]

/-- A tracker in the middle of the drop-flow's first stage: entity
`doc1.pdf` is being segmented (per the spec's pipeline, the LLM cleaning
stage would remain after segmentation). -/
def segTrackerState : PdfHandlerState :=
  { processing_state :=
      { current_pdf := some "data/pdf/doc1.pdf"
        processing_queue := []
        active_processes := [("pdf_segment_doc1.pdf", "data/pdf/doc1.pdf")]
        last_output_path := none
        processing_history := []
        failed_pdfs := [] }
    active_progress_ids := [("pdf_segment_doc1.pdf", "progress_pdf_segment_doc1.pdf")] }

/-- Claim C2, counterexample: when the segmentation process of `doc1.pdf`
finishes with exit code 0, the tracker appends the success record and
clears the active id, but launches no process at all (`launched = []`),
although the spec's stage sequence has the cleaning stage remaining —
`_handle_segmentation_finished` contains no call that starts a next
stage. -/
theorem segmentation_finished_launches_nothing :
    (on_process_finished segTrackerState "pdf_segment_doc1.pdf" 0 7).launched = [] ∧
    (on_process_finished segTrackerState "pdf_segment_doc1.pdf"
        0 7).state.processing_state.processing_history.map HistoryEntry.success = [true] ∧
    alistGet "pdf_segment_doc1.pdf"
      (on_process_finished segTrackerState "pdf_segment_doc1.pdf"
        0 7).state.processing_state.active_processes = none := by
  refine ⟨by decide, by decide, by decide⟩

/-- Claim C2 (amended): on a Finished (exit code 0) event for a tracked
segmentation process the tracker appends a success record to the entity's
history and clears the entity's active process id, but it never launches a
next stage's process: the handler issues no start request whatsoever (the
full multi-stage run is realised as one single `pdf_pipeline_` process,
and LLM processing after a bare segmentation is only started by a separate
user action). -/
theorem segmentation_finished_no_next_stage (hs : PdfHandlerState)
    (process_id pdf_path : String) (ts : Nat)
    (hactive : alistGet process_id hs.processing_state.active_processes = some pdf_path)
    (hnd : (hs.processing_state.active_processes.map Prod.fst).Nodup)
    (hseg : strStartsWith process_id "pdf_segment_" = true) :
    (on_process_finished hs process_id 0 ts).launched = [] ∧
    (on_process_finished hs process_id 0 ts).state.processing_state.processing_history.map
        (fun e => (e.pdf_path, e.process_id, e.success)) =
      hs.processing_state.processing_history.map
        (fun e => (e.pdf_path, e.process_id, e.success)) ++ [(pdf_path, process_id, true)] ∧
    alistGet process_id
      (on_process_finished hs process_id 0 ts).state.processing_state.active_processes =
      none := by
  simp only [on_process_finished, hseg, if_true, handle_segmentation_finished,
    ProcessingState.finish_processing, hactive]
  refine ⟨by trivial, ?_, ?_⟩
  · repeat' split
    all_goals simp [List.map_append]
  · repeat' split
    all_goals simp [alistGet_remove_self _ _ hnd]

/-- Witness for `segmentation_finished_no_next_stage`: the amended claim at
the concrete `segTrackerState`. -/
theorem segmentation_finished_no_next_stage_witness :
    (on_process_finished segTrackerState "pdf_segment_doc1.pdf" 0 7).launched = [] ∧
    (on_process_finished segTrackerState "pdf_segment_doc1.pdf"
        0 7).state.processing_state.processing_history.map
        (fun e => (e.pdf_path, e.process_id, e.success)) =
      segTrackerState.processing_state.processing_history.map
        (fun e => (e.pdf_path, e.process_id, e.success)) ++
        [("data/pdf/doc1.pdf", "pdf_segment_doc1.pdf", true)] ∧
    alistGet "pdf_segment_doc1.pdf"
      (on_process_finished segTrackerState "pdf_segment_doc1.pdf"
        0 7).state.processing_state.active_processes = none :=
  segmentation_finished_no_next_stage segTrackerState "pdf_segment_doc1.pdf"
    "data/pdf/doc1.pdf" 7 (by decide) (by decide) (by decide)

end PdfCleanup
